import Mathlib

/-
Verification development for the photoborder repository.

The pure logic of the program is shallowly embedded below:
- src/filemanager.py : glob-based include/exclude filtering
- src/main.py        : output-filename derivation in process_image
- src/text.py        : cursor advancement and binary-search font fitting
- src/border.py      : golden-ratio border sizing
- src/exif.py        : exif field formatting and extraction

Python floats are modelled with exact rationals or reals, Python integers
with Int, Python strings with String or List Char.  The style dispatch
(BorderType, create_border taking a style, draw_border, ratio borders)
is imported by src/main.py but its defining module is not part of the
source tree here; those definitions are modelled from the specification
and are marked as such in their doc comments.
-/

/- ===== src/filemanager.py ===== -/

/-- Does any suffix of the string satisfy the continuation m?  Helper
for the star case of the glob matcher. -/
def anySuffix (m : List Char → Bool) : List Char → Bool
  | [] => m []
  | c :: s => m (c :: s) || anySuffix m s

/-- Glob matcher modelling the Python stdlib fnmatch semantics for the
pattern forms this program uses: star (any sequence), question mark
(any single character) and literal characters.  Character classes are
not used by the program and are not modelled. -/
def globMatch : List Char → List Char → Bool
  | [], s => s.isEmpty
  | p :: ps, s =>
    if p = '*' then anySuffix (globMatch ps) s
    else
      match s with
      | [] => false
      | c :: s2 => if p = '?' then globMatch ps s2 else decide (p = c) && globMatch ps s2

/-- fnmatch(filename, pattern) from the Python stdlib, as used by
should_include_file. -/
def fnmatch (filename pat : String) : Bool :=
  globMatch pat.data filename.data

/-- src/filemanager.py, should_include_file. -/
def should_include_file (filename : String)
    (include_patterns exclude_patterns : List String) : Bool :=
  include_patterns.any (fun pattern => fnmatch filename pattern) &&
  !(exclude_patterns.any (fun pattern => fnmatch filename pattern))

/-- Default include patterns of the command line (src/main.py). -/
def default_include_patterns : List String :=
  ["*.jpg", "*.jpeg", "*.png", "*.JPG", "*.JPEG", "*.PNG"]

/-- Default exclude patterns of the command line (src/main.py). -/
def default_exclude_patterns : List String :=
  ["*_border*"]

/- ===== src/main.py : output filename derivation ===== -/

/-- Helper modelling the Python str.split on a dot: accumulates the
current segment (reversed) while scanning. -/
def splitDotAux : List Char → List Char → List (List Char)
  | [], acc => [acc.reverse]
  | c :: cs, acc =>
    if c = '.' then acc.reverse :: splitDotAux cs [] else splitDotAux cs (c :: acc)

/-- Python ".".join on the list of segments. -/
def joinDots : List (List Char) → List Char
  | [] => []
  | [x] => x
  | x :: xs => x ++ '.' :: joinDots xs

/-- The output-name computation of src/main.py process_image:
parts = the dot-separated segments of path, ext = last part, filename = the rest
re-joined with dots, then the border suffix with the style code, then
optionally the exif and palette suffixes, then the extension.
No stripping of prior suffixes is performed anywhere in process_image. -/
def process_image_save_name (path code : List Char)
    (add_exif add_palette : Bool) : List Char :=
  let parts := splitDotAux path []
  let ext := parts.getLastD []
  let filename := joinDots parts.dropLast
  let save_as := filename ++ "_border-".data ++ code
  let save_as := if add_exif then save_as ++ "_exif".data else save_as
  let save_as := if add_palette then save_as ++ "_palette".data else save_as
  save_as ++ '.' :: ext

/- ===== src/text.py ===== -/

/-- The while loop of get_optimal_font_size (src/text.py lines 128-135):
binary search driven by an abstract fitness check, returning the final
value of high together with the number of loop iterations executed.
Integer division by 2 here is Euclidean, which agrees with floor
division as performed by the Python // operator. -/
def gofsLoop (check : ℤ → Bool) (low high : ℤ) : ℤ × ℕ :=
  if h : low ≤ high then
    let mid := (low + high) / 2
    if check mid then
      let r := gofsLoop check (mid + 1) high
      (r.1, r.2 + 1)
    else
      let r := gofsLoop check low (mid - 1)
      (r.1, r.2 + 1)
  else
    (high, 0)
termination_by (high + 1 - low).toNat
decreasing_by all_goals omega

/-- src/text.py get_optimal_font_size.  The font measurement
font.getbbox(text) is abstracted into the function measure from font
size to measured glyph-box height; check_size s is measure s ≤ target. -/
def get_optimal_font_size (measure : ℤ → ℤ) (target_height : ℤ)
    (max_font_size min_font_size : ℤ) : ℤ :=
  (gofsLoop (fun s => decide (measure s ≤ target_height)) min_font_size max_font_size).1

/-- Number of loop iterations performed by get_optimal_font_size. -/
def get_optimal_font_size_steps (measure : ℤ → ℤ) (target_height : ℤ)
    (max_font_size min_font_size : ℤ) : ℕ :=
  (gofsLoop (fun s => decide (measure s ≤ target_height)) min_font_size max_font_size).2

/-- src/text.py draw_text_on_image, lines 96-106: the next-position
computation.  The drawn text width w (draw.textlength) is abstracted as
a parameter; all coordinates are rationals because Python computes them
with float division. -/
def draw_text_on_image_next (imgWidth w : ℚ) (xy : ℚ × ℚ)
    (fontSize : ℚ) (centered : Bool) : ℚ × ℚ :=
  let x := xy.1
  let y := xy.2
  let x := if centered then (imgWidth - w) / 2 else x
  let next_y := if centered then y + fontSize + fontSize / 2 else y
  let next_x := if centered then x else x + w + fontSize / 2
  (next_x, next_y)

/- ===== src/border.py : golden ratio sizing ===== -/

/-- The golden ratio constant (1 + 5 ** 0.5) / 2 of get_border_size. -/
noncomputable def phi : ℝ := (1 + Real.sqrt 5) / 2

/-- src/border.py get_border_size: border size from the golden ratio,
math.ceil(math.sqrt(canvas_area - img_area) / divisor) with
canvas_area = img_area * phi. -/
noncomputable def get_border_size (img_width img_height divisor : ℕ) : ℤ :=
  ⌈Real.sqrt ((img_width * img_height : ℝ) * phi - (img_width * img_height : ℝ)) / (divisor : ℝ)⌉

/- ===== Border styles =====
src/main.py imports BorderType, create_border, draw_border and draw_exif
from a border module whose style-dispatch code is not part of this
source tree (the border.py present is an earlier single-style revision).
The definitions below are therefore modelled from the specification. -/

/-- Modelled from the spec: the closed enumeration of border styles
accepted by the command line (p, s, m, l, i). -/
inductive BorderType where
  | polaroid
  | small
  | medium
  | large
  | instagram
deriving DecidableEq

/-- Modelled from the spec: the single-character style code used in the
output filename contract. -/
def BorderType.styleCode : BorderType → String
  | .polaroid => "p"
  | .small => "s"
  | .medium => "m"
  | .large => "l"
  | .instagram => "i"

/-- Modelled from the spec: the immutable Border value, four per-side
pixel sizes plus the style that produced it. -/
structure Border where
  top : ℤ
  right : ℤ
  bottom : ℤ
  left : ℤ
  btype : BorderType

/-- Modelled from the spec: ratioBorders(width, height, minBorder,
targetRatio) for the ratio-locked style.  The target ratio r is a
width over height quotient.  First pass: compare the image ratio with
the target (the comparison h * r < w is the division-free form of
w / h > r); pad the deficient axis to the size needed at the current
other axis, halved per side with integer flooring, floored at
minBorder; the other axis receives minBorder.  Second pass: recompute
the achieved ratio and apply one corrective adjustment, adding or
removing whole pixels per side (rounded to nearest) on the padded
axis. -/
def ratio_borders (w h minB : ℤ) (r : ℚ) : ℤ × ℤ :=
  if (h : ℚ) * r < (w : ℚ) then
    let v1 := max minB ⌊((w : ℚ) / r - (h : ℚ)) / 2⌋
    let W1 := w + 2 * minB
    let H1 := h + 2 * v1
    let v2 := v1 + round (((W1 : ℚ) / r - (H1 : ℚ)) / 2)
    (minB, v2)
  else
    let h1 := max minB ⌊((h : ℚ) * r - (w : ℚ)) / 2⌋
    let W1 := w + 2 * h1
    let H1 := h + 2 * minB
    let h2 := h1 + round (((H1 : ℚ) * r - (W1 : ℚ)) / 2)
    (h2, minB)

/-- Modelled from the spec: create_border(width, height, border_type) as
imported by src/main.py.  Small, Medium and Large feed one uniform
reduction factor per tier (32, 16, 6) into get_border_size for all four
sides; Polaroid uses the same top, left and right as Small but a much
smaller bottom reduction factor (6, as in the earlier revision kept in
src/border.py); Instagram targets the 4:5 width to height ratio via
ratio_borders with minBorder pre-seeded from the uniform top-reduction
computation, overwriting all four sides with the returned horizontal
and vertical pair. -/
noncomputable def create_border (w h : ℕ) (t : BorderType) : Border :=
  match t with
  | .small =>
    let b := get_border_size w h 32
    ⟨b, b, b, b, .small⟩
  | .medium =>
    let b := get_border_size w h 16
    ⟨b, b, b, b, .medium⟩
  | .large =>
    let b := get_border_size w h 6
    ⟨b, b, b, b, .large⟩
  | .polaroid =>
    let b := get_border_size w h 32
    ⟨b, b, get_border_size w h 6, b, .polaroid⟩
  | .instagram =>
    let m := get_border_size w h 32
    let p := ratio_borders (w : ℤ) (h : ℤ) m (4 / 5)
    ⟨p.2, p.1, p.2, p.1, .instagram⟩

/-- Modelled from the spec: the canvas dimensions produced by
draw_border, an expanded canvas with the original image pasted at
offset (left, top): width plus left and right sides, height plus top
and bottom sides. -/
noncomputable def draw_border_dims (w h : ℕ) (b : Border) : ℤ × ℤ :=
  ((w : ℤ) + b.left + b.right, (h : ℤ) + b.top + b.bottom)

/- ===== src/exif.py ===== -/

/-- Python int() truncation toward zero on a rational. -/
def pytrunc (q : ℚ) : ℤ :=
  if 0 ≤ q then ⌊q⌋ else ⌈q⌉

/-- src/exif.py format_shutter_speed on an already parsed positive
rational value (Fraction of a decimal string parses it exactly, and
limit_denominator with its default bound of one million is the
identity on the decimal values considered here): if the fraction is at
least 1, render the whole numerator only; otherwise render 1 over
int(1 / value), where int() truncates toward zero. -/
def format_shutter_speed (v : ℚ) : String :=
  if 1 ≤ v then toString v.num
  else "1/" ++ toString (pytrunc v⁻¹)

/-- Python round(x) with the round-half-to-even tie rule. -/
def pyround (q : ℚ) : ℤ :=
  if 2 * q = 2 * (⌊q⌋ : ℚ) + 1 then (if 2 ∣ ⌊q⌋ then ⌊q⌋ else ⌊q⌋ + 1)
  else round q

/-- src/exif.py format_focal_length on an already parsed rational value:
Python round(value, 2), which rounds to two decimals and returns a
float (not a string). -/
def format_focal_length (v : ℚ) : ℚ :=
  (pyround (v * 100) : ℚ) / 100

/-- Python str() of a float whose value is an exact multiple of 1/100,
as produced by round(value, 2): integral values render with a trailing
.0, otherwise the shortest decimal expansion with one or two digits is
used.  Only nonnegative values occur here. -/
def pyFloatStr (q : ℚ) : String :=
  let ip := ⌊q⌋
  let f := ((q - (ip : ℚ)) * 100).num
  if f = 0 then toString ip ++ ".0"
  else if f % 10 = 0 then toString ip ++ "." ++ toString (f / 10)
  else if f < 10 then toString ip ++ ".0" ++ toString f
  else toString ip ++ "." ++ toString f

/-- src/exif.py ExifItem with tag FocalLength rendered by str():
fmt_data = format_focal_length(data), then the template dataval + mm.
The data argument is the parsed numeric value of the stripped field. -/
def focal_length_display (v : ℚ) : String :=
  pyFloatStr (format_focal_length v) ++ "mm"

/- ===== src/exif.py : get_exif extraction ===== -/

/-- A raw exif payload as delivered by the imaging library: either an
already usable value (rendered as a string here) or a byte payload. -/
inductive ExifRaw where
  | rawStr (s : String)
  | rawBytes (bs : List Nat)
deriving DecidableEq

/-- The value stored in the exif dictionary for one tag: a decoded
string, or the untouched byte payload when decoding failed. -/
inductive ExifVal where
  | vStr (s : String)
  | vBytes (bs : List Nat)
deriving DecidableEq

/-- One iteration body of the get_exif loop (src/exif.py lines 92-101):
a bytes payload is decoded; a UnicodeDecodeError is swallowed and the
data keeps its raw bytes value.  The utf-8 decoder is abstracted as the
function decode. -/
def processEntry (decode : List Nat → Option String) : ExifRaw → ExifVal
  | .rawStr s => .vStr s
  | .rawBytes bs =>
    match decode bs with
    | some s => .vStr s
    | none => .vBytes bs

/-- The preset keys of the exif dictionary (src/exif.py lines 75-84). -/
def exifPresets : List (String × ExifVal) :=
  [("Make", .vStr ""), ("Model", .vStr ""), ("LensMake", .vStr ""),
   ("LensModel", .vStr ""), ("FNumber", .vStr ""), ("FocalLength", .vStr ""),
   ("ISOSpeedRatings", .vStr ""), ("ExposureTime", .vStr "")]

/-- Python dict assignment d[k] = v on an association list. -/
def updateAssoc : List (String × ExifVal) → String → ExifVal → List (String × ExifVal)
  | [], k, v => [(k, v)]
  | (k0, v0) :: rest, k, v =>
    if k0 = k then (k, v) :: rest else (k0, v0) :: updateAssoc rest k v

/-- src/exif.py get_exif: starting from the preset dictionary, every
tag of the exif data is processed in turn and stored; the per-field
decode handling is processEntry. -/
def get_exif (decode : List Nat → Option String)
    (entries : List (String × ExifRaw)) : List (String × ExifVal) :=
  entries.foldl (fun d e => updateAssoc d e.1 (processEntry decode e.2)) exifPresets

/-- Dictionary key membership. -/
def containsKey (l : List (String × ExifVal)) (k : String) : Bool :=
  l.any (fun e => decide (e.1 = k))

/-- The single quote character, written by code point to keep it out of
string literals. -/
def squote : Char := Char.ofNat 39

/-- Hexadecimal digit character for a value below 16. -/
def hexDigitChar (n : Nat) : Char :=
  Char.ofNat (if n < 10 then 48 + n else 87 + n)

/-- One byte of the Python bytes repr: printable ascii characters other
than the quote and the backslash stand for themselves, everything else
becomes a backslash-x escape. -/
def escapeByte (b : Nat) : List Char :=
  if 32 ≤ b ∧ b ≤ 126 ∧ b ≠ 39 ∧ b ≠ 92 then [Char.ofNat b]
  else '\\' :: 'x' :: hexDigitChar (b / 16) :: [hexDigitChar (b % 16)]

/-- Python str() of a bytes object: the letter b, a quote, the escaped
bytes, a closing quote. -/
def bytesRepr (bs : List Nat) : List Char :=
  'b' :: squote :: (bs.map escapeByte).flatten ++ [squote]

/-- Python str.strip() whitespace test (the characters this program can
meet). -/
def isPySpace (c : Char) : Bool :=
  c = ' ' || c = '\t' || c = '\n' || c = '\r'

/-- Python str.strip(). -/
def pyStrip (s : List Char) : List Char :=
  ((s.dropWhile isPySpace).reverse.dropWhile isPySpace).reverse

/-- The string templates of ExifItem.formatter (src/exif.py): prefix or
suffix around the formatted data, identity for unknown tags. -/
def applyFormatterTemplate (tag : String) (d : List Char) : List Char :=
  if tag = "Make" then "Shot on ".data ++ d
  else if tag = "FocalLength" then d ++ "mm".data
  else if tag = "FNumber" then "f/".data ++ d
  else if tag = "ISOSpeedRatings" then "ISO".data ++ d
  else if tag = "ExposureTime" then d ++ " sec".data
  else d

/-- src/exif.py ExifItem str() on a field whose data is an undecoded
byte payload: the empty-data guard does not fire (a bytes value is
never equal to the empty string), fmt_data = str(data).strip() is the
stripped bytes repr, the numeric special cases for ExposureTime and
FocalLength raise ValueError on such data and return it unchanged, and
finally the formatter template of the tag is applied. -/
def exifItemStrBytes (tag : String) (bs : List Nat) : List Char :=
  applyFormatterTemplate tag (pyStrip (bytesRepr bs))

/- ========================= Theorems ========================= -/

/-- C5: one call of draw_text_on_image starting at (x, y) with font size
s: in centered mode the returned next position has the centered x
(recomputed from the full image width) and a y advanced by s + s / 2;
in non-centered mode the y is unchanged and the x advances by the drawn
text width plus s / 2.  The two modes are never interchanged. -/
theorem c5_cursor_advance (imgWidth w x y s : ℚ) :
    draw_text_on_image_next imgWidth w (x, y) s true =
      ((imgWidth - w) / 2, y + s + s / 2) ∧
    draw_text_on_image_next imgWidth w (x, y) s false =
      (x + w + s / 2, y) :=
  ⟨rfl, rfl⟩

/-- C10: should_include_file is true exactly when the filename matches at
least one include pattern and no exclude pattern; in particular a file
matching both an include and an exclude pattern is skipped. -/
theorem c10_include_exclude (filename : String)
    (include_patterns exclude_patterns : List String) :
    should_include_file filename include_patterns exclude_patterns = true ↔
      ((∃ pat ∈ include_patterns, fnmatch filename pat = true) ∧
       ∀ pat ∈ exclude_patterns, fnmatch filename pat = false) := by
  simp [should_include_file, List.any_eq_true, Bool.and_eq_true,
    Bool.not_eq_true', List.any_eq_false]

/-- C2: get_border_size is exactly the golden-ratio formula
ceil(sqrt(width * height * phi - width * height) / reduceBy) with
phi = (1 + sqrt 5) / 2, and the result is a non-negative integer. -/
theorem c2_border_size (w h d : ℕ) (_hw : 0 < w) (_hh : 0 < h) (hd : 0 < d) :
    get_border_size w h d =
      ⌈Real.sqrt ((w * h : ℝ) * ((1 + Real.sqrt 5) / 2) - (w * h : ℝ)) / (d : ℝ)⌉ ∧
    0 ≤ get_border_size w h d := by
  refine ⟨rfl, ?_⟩
  exact Int.ceil_nonneg (div_nonneg (Real.sqrt_nonneg _) (by positivity))

/-- Witness for c2_border_size at the concrete input 4000 x 3000 with
reduction factor 32. -/
theorem c2_border_size_witness :
    0 < 4000 ∧ 0 < 3000 ∧ 0 < 32 ∧
    (get_border_size 4000 3000 32 =
      ⌈Real.sqrt ((4000 * 3000 : ℝ) * ((1 + Real.sqrt 5) / 2) - (4000 * 3000 : ℝ)) / (32 : ℝ)⌉ ∧
     0 ≤ get_border_size 4000 3000 32) :=
  ⟨by norm_num, by norm_num, by norm_num,
   c2_border_size 4000 3000 32 (by norm_num) (by norm_num) (by norm_num)⟩

/-- C3: a 4000 x 3000 image with the Small style gets the same border
b = get_border_size 4000 3000 32 on all four sides and the canvas
measures (4000 + 2b) x (3000 + 2b). -/
theorem c3_small_uniform_border :
    create_border 4000 3000 BorderType.small =
      ⟨get_border_size 4000 3000 32, get_border_size 4000 3000 32,
       get_border_size 4000 3000 32, get_border_size 4000 3000 32,
       BorderType.small⟩ ∧
    draw_border_dims 4000 3000 (create_border 4000 3000 BorderType.small) =
      (4000 + 2 * get_border_size 4000 3000 32,
       3000 + 2 * get_border_size 4000 3000 32) := by
  constructor
  · rfl
  · simp only [draw_border_dims, create_border]
    rw [Prod.mk.injEq]
    constructor <;> push_cast <;> ring

/-- Doubling a nearest-integer rounding of half a value stays within one
unit of the value. -/
lemma two_round_half_abs (x : ℚ) : |2 * (round (x / 2) : ℚ) - x| ≤ 1 := by
  have h := abs_sub_round (x / 2)
  have e : 2 * (round (x / 2) : ℚ) - x = -(2 * (x / 2 - (round (x / 2) : ℚ))) := by
    ring
  rw [e, abs_neg, abs_mul, abs_two]
  linarith

/-- Ratio bound for the branch that pads the vertical axis: after the
corrective pass the canvas is within one pixel row of the 4:5 ratio. -/
lemma insta_wide_bound (W1 H1 : ℤ) :
    |5 * W1 - 4 * (H1 + 2 * round (((W1 : ℚ) / (4 / 5) - (H1 : ℚ)) / 2))| ≤ 5 := by
  set x : ℚ := (W1 : ℚ) / (4 / 5) - (H1 : ℚ) with hx
  have h := two_round_half_abs x
  have key : |((5 * W1 - 4 * (H1 + 2 * round (x / 2)) : ℤ) : ℚ)| ≤ 5 := by
    have e : ((5 * W1 - 4 * (H1 + 2 * round (x / 2)) : ℤ) : ℚ)
        = -4 * (2 * (round (x / 2) : ℚ) - x) := by
      push_cast
      rw [hx]
      ring
    rw [e, abs_mul]
    have h4 : |(-4 : ℚ)| = 4 := by norm_num
    rw [h4]
    linarith
  exact_mod_cast key

/-- Ratio bound for the branch that pads the horizontal axis: after the
corrective pass the canvas is within one pixel column of the 4:5 ratio. -/
lemma insta_tall_bound (W1 H1 : ℤ) :
    |5 * (W1 + 2 * round (((H1 : ℚ) * (4 / 5) - (W1 : ℚ)) / 2)) - 4 * H1| ≤ 5 := by
  set x : ℚ := (H1 : ℚ) * (4 / 5) - (W1 : ℚ) with hx
  have h := two_round_half_abs x
  have key : |((5 * (W1 + 2 * round (x / 2)) - 4 * H1 : ℤ) : ℚ)| ≤ 5 := by
    have e : ((5 * (W1 + 2 * round (x / 2)) - 4 * H1 : ℤ) : ℚ)
        = 5 * (2 * (round (x / 2) : ℚ) - x) := by
      push_cast
      rw [hx]
      ring
    rw [e, abs_mul]
    have h5 : |(5 : ℚ)| = 5 := by norm_num
    rw [h5]
    linarith
  exact_mod_cast key

/-- The two-pass ratio correction lands within one pixel of the 4:5
target, for any image size and any minimum border seed. -/
lemma ratio_borders_bound (w h minB : ℤ) :
    |5 * (w + 2 * (ratio_borders w h minB (4 / 5)).1) -
     4 * (h + 2 * (ratio_borders w h minB (4 / 5)).2)| ≤ 5 := by
  unfold ratio_borders
  split_ifs with hc
  · dsimp only
    have hb := insta_wide_bound (w + 2 * minB)
      (h + 2 * max minB ⌊((w : ℚ) / (4 / 5) - (h : ℚ)) / 2⌋)
    convert hb using 2
    push_cast
    ring
  · dsimp only
    have hb := insta_tall_bound (w + 2 * max minB ⌊((h : ℚ) * (4 / 5) - (w : ℚ)) / 2⌋)
      (h + 2 * minB)
    convert hb using 2
    push_cast
    ring

/-- C4: with the ratio-locked (Instagram) style the composited canvas is
within one pixel row or column of the 4:5 width to height ratio (the
integer inequality |5W - 4H| <= 5 states that changing the width by at
most one pixel reaches the exact ratio), for every image size. -/
theorem c4_instagram_bound (w h : ℕ) (_hw : 0 < w) (_hh : 0 < h) :
    |5 * (draw_border_dims w h (create_border w h BorderType.instagram)).1 -
     4 * (draw_border_dims w h (create_border w h BorderType.instagram)).2| ≤ 5 := by
  have hb := ratio_borders_bound (w : ℤ) (h : ℤ) (get_border_size w h 32)
  simp only [draw_border_dims, create_border]
  convert hb using 2
  ring

/-- Witness for c4_instagram_bound at the concrete 3000 x 4000 input of
the end-to-end expectation. -/
theorem c4_instagram_bound_witness :
    0 < 3000 ∧ 0 < 4000 ∧
    |5 * (draw_border_dims 3000 4000 (create_border 3000 4000 BorderType.instagram)).1 -
     4 * (draw_border_dims 3000 4000 (create_border 3000 4000 BorderType.instagram)).2| ≤ 5 :=
  ⟨by norm_num, by norm_num,
   c4_instagram_bound 3000 4000 (by norm_num) (by norm_num)⟩

/-- Evaluation of gofsLoop on an already empty range. -/
lemma gofsLoop_empty (check : ℤ → Bool) (lo hi : ℤ) (h : ¬ lo ≤ hi) :
    gofsLoop check lo hi = (hi, 0) := by
  rw [gofsLoop, dif_neg h]

/-- The loop result lies in [lo - 1, hi] and, when it is at least lo, it
passes the check.  Fuel-indexed induction on the range size. -/
lemma gofsLoop_basic (check : ℤ → Bool) :
    ∀ (n : ℕ) (lo hi : ℤ), (hi + 1 - lo).toNat ≤ n → lo ≤ hi + 1 →
      lo - 1 ≤ (gofsLoop check lo hi).1 ∧ (gofsLoop check lo hi).1 ≤ hi ∧
      (lo ≤ (gofsLoop check lo hi).1 → check (gofsLoop check lo hi).1 = true) := by
  intro n
  induction n with
  | zero =>
    intro lo hi hn hlo
    have hgt : ¬ lo ≤ hi := by omega
    rw [gofsLoop_empty check lo hi hgt]
    exact ⟨by omega, by omega, fun hle => absurd (by omega : lo ≤ hi) hgt⟩
  | succ n ih =>
    intro lo hi hn hlo
    by_cases hle : lo ≤ hi
    · rw [gofsLoop, dif_pos hle]
      dsimp only
      have hmid1 : lo ≤ (lo + hi) / 2 := by omega
      have hmid2 : (lo + hi) / 2 ≤ hi := by omega
      by_cases hchk : check ((lo + hi) / 2) = true
      · rw [if_pos hchk]
        dsimp only
        obtain ⟨h1, h2, h3⟩ := ih ((lo + hi) / 2 + 1) hi (by omega) (by omega)
        refine ⟨by omega, h2, ?_⟩
        intro _
        rcases lt_or_le (gofsLoop check ((lo + hi) / 2 + 1) hi).1 ((lo + hi) / 2 + 1)
          with hlt | hge
        · have he : (gofsLoop check ((lo + hi) / 2 + 1) hi).1 = (lo + hi) / 2 := by omega
          rw [he]
          exact hchk
        · exact h3 hge
      · rw [if_neg hchk]
        dsimp only
        obtain ⟨h1, h2, h3⟩ := ih lo ((lo + hi) / 2 - 1) (by omega) (by omega)
        exact ⟨h1, by omega, h3⟩
    · rw [gofsLoop_empty check lo hi hle]
      exact ⟨by omega, by omega, fun h => absurd (by omega : lo ≤ hi) hle⟩

/-- Under a downward-closed check (the monotone-measurement case) every
size above the loop result and within the range fails the check. -/
lemma gofsLoop_above_false (check : ℤ → Bool)
    (hmono : ∀ a b : ℤ, a ≤ b → check b = true → check a = true) :
    ∀ (n : ℕ) (lo hi : ℤ), (hi + 1 - lo).toNat ≤ n →
      ∀ s, (gofsLoop check lo hi).1 < s → s ≤ hi → check s = false := by
  intro n
  induction n with
  | zero =>
    intro lo hi hn s hrs hshi
    have hgt : ¬ lo ≤ hi := by omega
    rw [gofsLoop_empty check lo hi hgt] at hrs
    omega
  | succ n ih =>
    intro lo hi hn s hrs hshi
    by_cases hle : lo ≤ hi
    · rw [gofsLoop, dif_pos hle] at hrs
      dsimp only at hrs
      by_cases hchk : check ((lo + hi) / 2) = true
      · rw [if_pos hchk] at hrs
        dsimp only at hrs
        exact ih ((lo + hi) / 2 + 1) hi (by omega) s hrs hshi
      · rw [if_neg hchk] at hrs
        dsimp only at hrs
        rcases le_or_lt s ((lo + hi) / 2 - 1) with hs | hs
        · exact ih lo ((lo + hi) / 2 - 1) (by omega) s hrs hs
        · cases hcs : check s with
          | false => rfl
          | true =>
            exact absurd (hmono ((lo + hi) / 2) s (by omega) hcs) hchk
    · rw [gofsLoop_empty check lo hi hle] at hrs
      omega

/-- The loop runs at most floor(log2(range)) + 1 iterations, for any
check function, where range = hi + 1 - lo. -/
lemma gofsLoop_steps (check : ℤ → Bool) :
    ∀ (n : ℕ) (lo hi : ℤ), (hi + 1 - lo).toNat ≤ n →
      (gofsLoop check lo hi).2 ≤ Nat.log 2 ((hi + 1 - lo).toNat) + 1 := by
  intro n
  induction n with
  | zero =>
    intro lo hi hn
    have hgt : ¬ lo ≤ hi := by omega
    rw [gofsLoop_empty check lo hi hgt]
    exact Nat.zero_le _
  | succ n ih =>
    intro lo hi hn
    by_cases hle : lo ≤ hi
    · rw [gofsLoop, dif_pos hle]
      dsimp only
      have hlog2 : 2 ≤ (hi + 1 - lo).toNat →
          Nat.log 2 ((hi + 1 - lo).toNat / 2) + 1 = Nat.log 2 ((hi + 1 - lo).toNat) := by
        intro hm
        have hd := Nat.log_div_base 2 ((hi + 1 - lo).toNat)
        have hp : 0 < Nat.log 2 ((hi + 1 - lo).toNat) := Nat.log_pos (by norm_num) hm
        omega
      by_cases hchk : check ((lo + hi) / 2) = true
      · rw [if_pos hchk]
        dsimp only
        by_cases hempty : (lo + hi) / 2 + 1 ≤ hi
        · have hsub := ih ((lo + hi) / 2 + 1) hi (by omega)
          have hhalf : (hi + 1 - ((lo + hi) / 2 + 1)).toNat ≤ (hi + 1 - lo).toNat / 2 := by
            omega
          have hmono := Nat.log_mono_right (b := 2) hhalf
          have hm2 : 2 ≤ (hi + 1 - lo).toNat := by omega
          have := hlog2 hm2
          omega
        · rw [gofsLoop_empty check _ hi hempty]
          simp
      · rw [if_neg hchk]
        dsimp only
        by_cases hempty : lo ≤ (lo + hi) / 2 - 1
        · have hsub := ih lo ((lo + hi) / 2 - 1) (by omega)
          have hhalf : ((lo + hi) / 2 - 1 + 1 - lo).toNat ≤ (hi + 1 - lo).toNat / 2 := by
            omega
          have hmono := Nat.log_mono_right (b := 2) hhalf
          have hm2 : 2 ≤ (hi + 1 - lo).toNat := by omega
          have := hlog2 hm2
          omega
        · rw [gofsLoop_empty check lo _ hempty]
          simp
    · rw [gofsLoop_empty check lo hi hle]
      exact Nat.zero_le _

/-- C1 (amended): for min_font_size <= max_font_size the search result r
satisfies min - 1 <= r <= max; whenever r >= min it fits the target;
under a monotone non-decreasing measurement every size above r in the
range does not fit, so r is the largest fitting size; when nothing in
the range fits, r = min_font_size - 1, the value of high at loop exit;
and for any measurement, monotone or not, the loop runs at most
floor(log2(range)) + 1 iterations with range = max - min + 1 (the
bound ceil(log2(range)) of the original claim is exceeded, see the
counterexample). -/
theorem c1_font_fit (measure : ℤ → ℤ) (target minFS maxFS : ℤ)
    (hrange : minFS ≤ maxFS) :
    (minFS - 1 ≤ get_optimal_font_size measure target maxFS minFS ∧
     get_optimal_font_size measure target maxFS minFS ≤ maxFS) ∧
    (minFS ≤ get_optimal_font_size measure target maxFS minFS →
      measure (get_optimal_font_size measure target maxFS minFS) ≤ target) ∧
    ((∀ a b : ℤ, a ≤ b → measure a ≤ measure b) →
      ∀ s, get_optimal_font_size measure target maxFS minFS < s → s ≤ maxFS →
        target < measure s) ∧
    ((∀ s, minFS ≤ s → s ≤ maxFS → target < measure s) →
      get_optimal_font_size measure target maxFS minFS = minFS - 1) ∧
    get_optimal_font_size_steps measure target maxFS minFS ≤
      Nat.log 2 (maxFS + 1 - minFS).toNat + 1 := by
  set check : ℤ → Bool := fun s => decide (measure s ≤ target) with hcheck
  have hdef1 : get_optimal_font_size measure target maxFS minFS
      = (gofsLoop check minFS maxFS).1 := rfl
  have hdef2 : get_optimal_font_size_steps measure target maxFS minFS
      = (gofsLoop check minFS maxFS).2 := rfl
  rw [hdef1, hdef2]
  obtain ⟨hb1, hb2, hb3⟩ :=
    gofsLoop_basic check (maxFS + 1 - minFS).toNat minFS maxFS le_rfl (by omega)
  have hfit : minFS ≤ (gofsLoop check minFS maxFS).1 →
      measure (gofsLoop check minFS maxFS).1 ≤ target := by
    intro hle
    have := hb3 hle
    simpa [hcheck] using this
  refine ⟨⟨hb1, hb2⟩, hfit, ?_, ?_, ?_⟩
  · intro hmono s hrs hsmax
    have hcmono : ∀ a b : ℤ, a ≤ b → check b = true → check a = true := by
      intro a b hab hcb
      simp only [hcheck, decide_eq_true_eq] at hcb ⊢
      exact le_trans (hmono a b hab) hcb
    have := gofsLoop_above_false check hcmono (maxFS + 1 - minFS).toNat minFS maxFS
      le_rfl s hrs hsmax
    simpa [hcheck] using this
  · intro hnone
    rcases lt_or_le (gofsLoop check minFS maxFS).1 minFS with hlt | hge
    · omega
    · exact absurd (hfit hge) (not_le.mpr (hnone _ hge hb2))
  · exact gofsLoop_steps check (maxFS + 1 - minFS).toNat minFS maxFS le_rfl

/-- Witness for c1_font_fit: measurement measure s = s, target height 3,
sizes 1 to 5. -/
theorem c1_font_fit_witness :
    (1 : ℤ) ≤ 5 ∧
    ((((1 : ℤ) - 1 ≤ get_optimal_font_size (fun s => s) 3 5 1 ∧
       get_optimal_font_size (fun s => s) 3 5 1 ≤ 5) ∧
      ((1 : ℤ) ≤ get_optimal_font_size (fun s => s) 3 5 1 →
        get_optimal_font_size (fun s => s) 3 5 1 ≤ 3) ∧
      ((∀ a b : ℤ, a ≤ b → a ≤ b) →
        ∀ s, get_optimal_font_size (fun s => s) 3 5 1 < s → s ≤ 5 → 3 < s) ∧
      ((∀ s : ℤ, 1 ≤ s → s ≤ 5 → 3 < s) →
        get_optimal_font_size (fun s => s) 3 5 1 = 1 - 1) ∧
      get_optimal_font_size_steps (fun s => s) 3 5 1 ≤
        Nat.log 2 ((5 : ℤ) + 1 - 1).toNat + 1)) :=
  ⟨by norm_num, c1_font_fit (fun s => s) 3 1 5 (by norm_num)⟩

/-- C1 counterexample: with min_font_size = 1 and max_font_size = 2 and
a measurement that always fits, the loop runs 2 iterations, which
exceeds ceil(log2(range)) both for range = max - min + 1 = 2 (bound 1)
and for range = max - min = 1 (bound 0). -/
theorem c1_counterexample :
    get_optimal_font_size_steps (fun _ => 0) 0 2 1 = 2 ∧
    Nat.clog 2 2 = 1 ∧ Nat.clog 2 1 = 0 ∧
    ¬ get_optimal_font_size_steps (fun _ => 0) 0 2 1 ≤ Nat.clog 2 2 := by
  have h2 : get_optimal_font_size_steps (fun _ => 0) 0 2 1 = 2 := by
    unfold get_optimal_font_size_steps
    rw [gofsLoop]
    norm_num
    rw [gofsLoop]
    norm_num
    rw [gofsLoop_empty _ _ _ (by norm_num)]
  have hclog2 : Nat.clog 2 2 = 1 := by
    rw [Nat.clog]
    norm_num [Nat.clog_one_right]
  exact ⟨h2, hclog2, Nat.clog_one_right 2, by omega⟩

/-- C6 counterexample: for the decimal exposure value 0.15 (= 3/20) the
code renders 1/6, because int() truncates 1/0.15 = 6.66... toward
zero, while rounding 1/v to the nearest integer gives 7; so the
rendered string differs from the claimed 1/round(1/v). -/
theorem c6_counterexample :
    format_shutter_speed (3 / 20) = "1/6" ∧
    round ((3 / 20 : ℚ)⁻¹) = 7 ∧
    format_shutter_speed (3 / 20) ≠ "1/" ++ toString (round ((3 / 20 : ℚ)⁻¹)) := by
  have hfl : pytrunc ((3 / 20 : ℚ)⁻¹) = 6 := by
    unfold pytrunc
    rw [if_pos (by norm_num)]
    norm_num
  have h1 : format_shutter_speed (3 / 20) = "1/6" := by
    unfold format_shutter_speed
    rw [if_neg (by norm_num), hfl]
    rfl
  have h2 : round ((3 / 20 : ℚ)⁻¹) = 7 := by
    rw [round_eq]
    norm_num
  refine ⟨h1, h2, ?_⟩
  rw [h1, h2]
  decide

/-- C6 (amended): for a parsed positive decimal exposure value v, a
value of at least 1 renders the whole numerator only, and a value
below 1 renders 1 over the truncation of 1/v toward zero (equal to its
floor on this positive domain), not the nearest-integer rounding. -/
theorem c6_shutter_format (v : ℚ) (hv : 0 < v) :
    (1 ≤ v → format_shutter_speed v = toString v.num) ∧
    (v < 1 → format_shutter_speed v = "1/" ++ toString ⌊v⁻¹⌋) := by
  constructor
  · intro h
    unfold format_shutter_speed
    rw [if_pos h]
  · intro h
    unfold format_shutter_speed pytrunc
    rw [if_neg (by linarith), if_pos (by positivity)]

/-- Witness for c6_shutter_format at the sub-second value 0.5. -/
theorem c6_shutter_format_witness :
    (0 : ℚ) < 1 / 2 ∧
    ((1 ≤ (1 / 2 : ℚ) → format_shutter_speed (1 / 2) = toString (1 / 2 : ℚ).num) ∧
     ((1 / 2 : ℚ) < 1 → format_shutter_speed (1 / 2) = "1/" ++ toString ⌊(1 / 2 : ℚ)⁻¹⌋)) :=
  ⟨by norm_num, c6_shutter_format (1 / 2) (by norm_num)⟩

/-- C7: evaluating the code at the failing input.  For the field value
23, format_focal_length returns the Python float 23.0 (round with a
digit count always returns a float) and the template renders the
string 23.0mm, not the 23mm that the specification and the test
tests/test_exif.py require. -/
theorem c7_focal_float_bug :
    focal_length_display 23 = "23.0mm" ∧ focal_length_display 23 ≠ "23mm" := by
  have hr : format_focal_length 23 = 23 := by
    unfold format_focal_length pyround
    rw [if_neg (by norm_num), round_eq]
    norm_num
  have h1 : focal_length_display 23 = "23.0mm" := by
    unfold focal_length_display
    rw [hr]
    unfold pyFloatStr
    norm_num
    decide
  exact ⟨h1, by rw [h1]; decide⟩

/-- Any suffix matcher succeeds on a string it accepts whole. -/
lemma anySuffix_of_self (m : List Char → Bool) (s : List Char) (h : m s = true) :
    anySuffix m s = true := by
  cases s <;> simp [anySuffix, h]

/-- Any suffix matcher is stable under prepending characters. -/
lemma anySuffix_append (m : List Char → Bool) (a s : List Char)
    (h : anySuffix m s = true) : anySuffix m (a ++ s) = true := by
  induction a with
  | nil => simpa using h
  | cons c a ih => simp [anySuffix, ih]

/-- A matcher accepting the empty string makes anySuffix accept
everything. -/
lemma anySuffix_nil_true (m : List Char → Bool) (hm : m [] = true) (s : List Char) :
    anySuffix m s = true := by
  induction s with
  | nil => simpa [anySuffix] using hm
  | cons c s ih => simp [anySuffix, ih]

/-- The pattern border-then-star matches the border text followed by
anything. -/
lemma glob_trailing_star (b : List Char) :
    globMatch "_border*".data ("_border".data ++ b) = true := by
  show anySuffix (globMatch []) b = true
  exact anySuffix_nil_true _ rfl b

/-- The default exclude pattern matches any string that contains the
border marker. -/
lemma glob_border_anywhere (a b : List Char) :
    globMatch "*_border*".data (a ++ ("_border".data ++ b)) = true := by
  show anySuffix (globMatch "_border*".data) (a ++ ("_border".data ++ b)) = true
  exact anySuffix_append _ a _ (anySuffix_of_self _ _ (glob_trailing_star b))

/-- Same, phrased for the marker as produced by the save-name
derivation (border marker followed by the dash and the style code). -/
lemma glob_border_dash (x y : List Char) :
    globMatch "*_border*".data (x ++ ("_border-".data ++ y)) = true := by
  have h := glob_border_anywhere x ('-' :: y)
  have e : ("_border-".data : List Char) ++ y = "_border".data ++ ('-' :: y) := by
    rw [show ("_border-".data : List Char) = "_border".data ++ ['-'] from rfl]
    simp
  rw [e]
  exact h

/-- C8 counterexample: deriving the output name for an input that
already carries border and exif suffixes does not strip them; with the
same flags the result doubles the suffix block instead of reproducing
the input name, so the derivation is not idempotent. -/
theorem c8_counterexample :
    process_image_save_name "photo_border-s_exif.jpg".data "s".data true false =
      "photo_border-s_exif_border-s_exif.jpg".data ∧
    process_image_save_name "photo_border-s_exif.jpg".data "s".data true false ≠
      "photo_border-s_exif.jpg".data := by
  constructor <;> decide

/-- C8 (amended): process_image appends the border, exif and palette
suffixes without stripping prior ones, so re-deriving is not idempotent
on already-suffixed names; accumulation is instead prevented upstream:
every derived name matches the default exclude pattern, so
should_include_file skips it on a later run. -/
theorem c8_no_strip (path code : List Char) (e p : Bool) :
    globMatch "*_border*".data (process_image_save_name path code e p) = true ∧
    should_include_file (String.mk (process_image_save_name path code e p))
      default_include_patterns default_exclude_patterns = false := by
  have h1 : globMatch "*_border*".data (process_image_save_name path code e p) = true := by
    unfold process_image_save_name
    cases e <;> cases p <;> dsimp only <;>
        simp only [Bool.false_eq_true, if_false, if_true, List.append_assoc] <;>
      exact glob_border_dash _ _
  refine ⟨h1, ?_⟩
  unfold should_include_file default_exclude_patterns
  have h2 : fnmatch (String.mk (process_image_save_name path code e p)) "*_border*" = true := h1
  simp [h2]

/-- Key membership after a dict assignment: the updated dict has the
keys of the old one plus the assigned key. -/
lemma containsKey_updateAssoc (l : List (String × ExifVal)) (k : String)
    (v : ExifVal) (k2 : String) :
    containsKey (updateAssoc l k v) k2 = (containsKey l k2 || decide (k = k2)) := by
  induction l with
  | nil => simp [updateAssoc, containsKey]
  | cons hd tl ih =>
    obtain ⟨k0, v0⟩ := hd
    simp only [updateAssoc]
    by_cases hk : k0 = k
    · subst hk
      rw [if_pos rfl]
      simp only [containsKey, List.any_cons]
      by_cases h2 : k0 = k2 <;> simp [h2]
    · rw [if_neg hk]
      simp only [containsKey, List.any_cons] at ih ⊢
      rw [ih, Bool.or_assoc]

/-- A dict assignment makes its key present. -/
lemma containsKey_updateAssoc_self (l : List (String × ExifVal)) (k : String) (v : ExifVal) :
    containsKey (updateAssoc l k v) k = true := by
  rw [containsKey_updateAssoc]
  simp

/-- A dict assignment keeps every existing key present. -/
lemma containsKey_updateAssoc_mono (l : List (String × ExifVal)) (k k2 : String)
    (v : ExifVal) (h : containsKey l k2 = true) :
    containsKey (updateAssoc l k v) k2 = true := by
  rw [containsKey_updateAssoc, h]
  simp

/-- Folding the exif entries over the dict preserves existing keys. -/
lemma containsKey_fold (decode : List Nat → Option String) :
    ∀ (entries : List (String × ExifRaw)) (init : List (String × ExifVal)) (k : String),
      containsKey init k = true →
      containsKey (entries.foldl (fun d e => updateAssoc d e.1 (processEntry decode e.2)) init) k = true := by
  intro entries
  induction entries with
  | nil => intro init k h; simpa using h
  | cons hd tl ih =>
    intro init k h
    rw [List.foldl_cons]
    exact ih _ k (containsKey_updateAssoc_mono _ _ _ _ h)

/-- Every processed entry ends up with its tag present in the dict:
the extraction never aborts early. -/
lemma containsKey_fold_mem (decode : List Nat → Option String) :
    ∀ (entries : List (String × ExifRaw)) (init : List (String × ExifVal))
      (e : String × ExifRaw), e ∈ entries →
      containsKey (entries.foldl (fun d x => updateAssoc d x.1 (processEntry decode x.2)) init) e.1 = true := by
  intro entries
  induction entries with
  | nil => intro init e he; simp at he
  | cons hd tl ih =>
    intro init e he
    rw [List.foldl_cons]
    rcases List.mem_cons.mp he with he | he
    · subst he
      exact containsKey_fold decode tl _ e.1 (containsKey_updateAssoc_self _ _ _)
    · exact ih _ e he

/-- The bytes repr neither starts nor ends with whitespace, so
stripping it is the identity. -/
lemma pyStrip_bytesRepr (bs : List Nat) : pyStrip (bytesRepr bs) = bytesRepr bs := by
  have hshape : bytesRepr bs
      = 'b' :: (squote :: ((bs.map escapeByte).flatten ++ [squote])) := by
    unfold bytesRepr
    simp
  have h1 : List.dropWhile isPySpace (bytesRepr bs) = bytesRepr bs := by
    rw [hshape, List.dropWhile_cons, if_neg (by decide)]
  have h2 : List.dropWhile isPySpace ((bytesRepr bs).reverse) = (bytesRepr bs).reverse := by
    have hrev : (bytesRepr bs).reverse
        = squote :: ((bs.map escapeByte).flatten.reverse ++ [squote, 'b']) := by
      rw [hshape]
      simp
    rw [hrev, List.dropWhile_cons, if_neg (by decide)]
  unfold pyStrip
  rw [h1, h2, List.reverse_reverse]

/-- The formatter templates never produce the empty string from
non-empty data. -/
lemma applyFormatterTemplate_ne_nil (tag : String) (d : List Char) (hd : d ≠ []) :
    applyFormatterTemplate tag d ≠ [] := by
  unfold applyFormatterTemplate
  split_ifs <;> simp [hd]

/-- C9 (amended): a field whose byte payload fails to decode is
swallowed at the field level and extraction continues over all tags
(every entry tag is present in the result), but the field keeps its
raw bytes value and renders as the Python bytes repr, which is never
the empty string. -/
theorem c9_decode_failure (decode : List Nat → Option String)
    (entries : List (String × ExifRaw)) (tag : String) (bs : List Nat)
    (hmem : (tag, ExifRaw.rawBytes bs) ∈ entries) (hfail : decode bs = none) :
    processEntry decode (ExifRaw.rawBytes bs) = ExifVal.vBytes bs ∧
    containsKey (get_exif decode entries) tag = true ∧
    (∀ e ∈ entries, containsKey (get_exif decode entries) e.1 = true) ∧
    exifItemStrBytes tag bs ≠ [] := by
  refine ⟨?_, ?_, ?_, ?_⟩
  · simp [processEntry, hfail]
  · exact containsKey_fold_mem decode entries exifPresets (tag, ExifRaw.rawBytes bs) hmem
  · intro e he
    exact containsKey_fold_mem decode entries exifPresets e he
  · unfold exifItemStrBytes
    rw [pyStrip_bytesRepr]
    exact applyFormatterTemplate_ne_nil _ _ (by simp [bytesRepr])

/-- Witness for c9_decode_failure: a single Make tag whose payload
never decodes. -/
theorem c9_decode_failure_witness :
    ((("Make", ExifRaw.rawBytes [255]) ∈ [(("Make" : String), ExifRaw.rawBytes [255])]) ∧
     (fun (_ : List Nat) => (none : Option String)) [255] = none) ∧
    (processEntry (fun _ => none) (ExifRaw.rawBytes [255]) = ExifVal.vBytes [255] ∧
     containsKey (get_exif (fun _ => none) [("Make", ExifRaw.rawBytes [255])]) "Make" = true ∧
     (∀ e ∈ [(("Make" : String), ExifRaw.rawBytes [255])],
       containsKey (get_exif (fun _ => none) [("Make", ExifRaw.rawBytes [255])]) e.1 = true) ∧
     exifItemStrBytes "Make" [255] ≠ []) :=
  ⟨⟨by decide, rfl⟩,
   c9_decode_failure (fun _ => none) [("Make", ExifRaw.rawBytes [255])] "Make" [255]
     (by decide) rfl⟩

/-- C9 counterexample: with an undecodable Make payload the extraction
still covers the following Model tag, and the failed field renders as
the bytes repr of its payload, not as the empty string as claimed. -/
theorem c9_counterexample :
    get_exif (fun _ => none) [("Make", ExifRaw.rawBytes [255]), ("Model", ExifRaw.rawStr "X100V")] =
      [("Make", ExifVal.vBytes [255]), ("Model", ExifVal.vStr "X100V"),
       ("LensMake", ExifVal.vStr ""), ("LensModel", ExifVal.vStr ""),
       ("FNumber", ExifVal.vStr ""), ("FocalLength", ExifVal.vStr ""),
       ("ISOSpeedRatings", ExifVal.vStr ""), ("ExposureTime", ExifVal.vStr "")] ∧
    exifItemStrBytes "Make" [255] =
      "Shot on b".data ++ squote :: '\\' :: 'x' :: 'f' :: 'f' :: [squote] ∧
    exifItemStrBytes "Make" [255] ≠ [] := by
  refine ⟨by decide, by decide, by decide⟩
